import Mathlib

/-!
Shallow embedding of the EasyPars fight-data scraper (the fleshed-out
parser package: text normalisers, date formatting, row-context extraction,
unique-ID generation, the status handling of the document fetch, and the
result-collection loop), together with theorems settling the frozen claims.

HTML is modelled structurally: a cell carries its css class, its flattened
text and the texts of its embedded anchors; a goquery selection becomes a
list of cells.  Environmental effects become explicit parameters: clock
reads (time.Now) are passed in as values, and each select iteration of the
result collector consumes one observed event (a channel receive or the
firing of the timeout case).  All functions are written with structural or
fuel-bounded recursion so that concrete instances evaluate by kernel
reduction.
-/

namespace EasyPars

/-- whitespace recognised by Go's strings.TrimSpace (the ASCII range
together with NEL and NBSP; wider unicode space classes do not occur in
the scraped markup). -/
def goIsSpace (c : Char) : Bool :=
  c = ' ' || ('\t' ≤ c && c ≤ '\r') || c = '\u0085' || c = '\u00A0'

/-- strings.TrimSpace: drop leading and trailing whitespace. -/
def goTrim (s : String) : String :=
  ⟨((s.data.dropWhile goIsSpace).reverse.dropWhile goIsSpace).reverse⟩

/-- character class of Go's regexp token for whitespace, namely
tab, newline, formfeed, carriage return and space. -/
def regexWS (c : Char) : Bool :=
  c = ' ' || c = '\t' || c = '\n' || c = '\u000c' || c = '\r'

/-- replacement of every maximal run of regexp whitespace by one space,
as ReplaceAllString with the whitespace-run pattern does; the flag records
whether the previous character belonged to a run. -/
def collapseWSAux : Bool → List Char → List Char
  | _, [] => []
  | prevWS, c :: cs =>
    if regexWS c then
      if prevWS then collapseWSAux true cs else ' ' :: collapseWSAux true cs
    else c :: collapseWSAux false cs

/-- whitespace-run collapsing on a character list. -/
def collapseWS (l : List Char) : List Char := collapseWSAux false l

/-- scan, after an opening html comment marker, for the first closing
marker; Go's regexp dot does not cross a newline, so a newline before the
closing marker means no match.  Returns the remainder after the closing
marker on success. -/
def findCommentClose : List Char → Option (List Char)
  | '-' :: '-' :: '>' :: rest => some rest
  | '\n' :: _ => none
  | _ :: rest => findCommentClose rest
  | [] => none

/-- removal of every leftmost non-greedy html comment match, as
ReplaceAllString with the comment pattern does; the fuel bounds the scan
by the input length. -/
def stripCommentsF : Nat → List Char → List Char
  | 0, l => l
  | fuel+1, l =>
    match l with
    | '<' :: '!' :: '-' :: '-' :: rest =>
      match findCommentClose rest with
      | some rem => stripCommentsF fuel rem
      | none => '<' :: stripCommentsF fuel ('!' :: '-' :: '-' :: rest)
    | c :: rest => c :: stripCommentsF fuel rest
    | [] => []

/-- html comment removal on a character list. -/
def stripComments (l : List Char) : List Char := stripCommentsF l.length l

/-- cleanLocationText: trim, strip html comments, collapse whitespace
runs, trim again, and fall back to the sentinel when the result is empty. -/
def cleanLocationText (locationText : String) : String :=
  let cleaned := goTrim locationText
  let cleaned := String.mk (stripComments cleaned.data)
  let cleaned := String.mk (collapseWS cleaned.data)
  let cleaned := goTrim cleaned
  if cleaned = "" then "Unknown Location" else cleaned

/-- digit-run accumulator underlying strconv.Atoi (64-bit overflow is not
modelled; the scraped day tokens are at most two digits). -/
def parseDigitsAux : List Char → Nat → Option Nat
  | [], acc => some acc
  | c :: cs, acc =>
    if c.isDigit then parseDigitsAux cs (acc * 10 + (c.toNat - 48)) else none

/-- strconv.Atoi: an optional sign followed by at least one digit; any
other shape is an error, which the embedding reports as none. -/
def goAtoi (s : String) : Option Int :=
  match s.data with
  | [] => none
  | '+' :: rest => if rest = [] then none else (parseDigitsAux rest 0).map (fun n => (n : Int))
  | '-' :: rest => if rest = [] then none else (parseDigitsAux rest 0).map (fun n => -(n : Int))
  | l => (parseDigitsAux l 0).map (fun n => (n : Int))

/-- leap-year rule of Go's time package (proleptic Gregorian). -/
def isLeap (y : Int) : Bool := y % 4 = 0 && (y % 100 ≠ 0 || y % 400 = 0)

/-- days in a month of a year, as time.Date uses. -/
def daysInMonth (y m : Int) : Int :=
  if m = 2 then (if isLeap y then 29 else 28)
  else if m = 4 ∨ m = 6 ∨ m = 9 ∨ m = 11 then 30
  else 31

/-- month normalisation of time.Date: a month outside 1..12 rolls the
year (floor division pairs with the nonnegative remainder). -/
def normYM (y m : Int) : Int × Int := (y + (m - 1).fdiv 12, (m - 1).emod 12 + 1)

/-- day normalisation of time.Date: an out-of-range day rolls month by
month; the fuel bounds the number of carries. -/
def normDayF : Nat → Int × Int × Int → Int × Int × Int
  | 0, x => x
  | fuel+1, (y, m, d) =>
    if d < 1 then
      let p := if m = 1 then (y - 1, (12 : Int)) else (y, m - 1)
      normDayF fuel (p.1, p.2, d + daysInMonth p.1 p.2)
    else if daysInMonth y m < d then
      let p := if m = 12 then (y + 1, (1 : Int)) else (y, m + 1)
      normDayF fuel (p.1, p.2, d - daysInMonth y m)
    else (y, m, d)

/-- civil date produced by time.Date(year, month, day, 0, 0, 0, 0, UTC). -/
def goDate (year month day : Int) : Int × Int × Int :=
  let ym := normYM year month
  normDayF (day.natAbs + 1) (ym.1, ym.2, day)

/-- decimal digit characters (most significant first) of a positive
number; the fuel is consumed once per digit. -/
def decChars : Nat → Nat → List Char
  | 0, _ => []
  | fuel+1, n => if n = 0 then [] else decChars fuel (n / 10) ++ [Nat.digitChar (n % 10)]

/-- decimal representation of a natural number, as the integer verb of
the fmt package prints it. -/
def natDecChars (n : Nat) : List Char := if n = 0 then ['0'] else decChars n n

/-- decimal representation as a string. -/
def natDec (n : Nat) : String := ⟨natDecChars n⟩

/-- decimal representation of an integer (the int64 values of the source
stay far from overflow). -/
def intDec : Int → String
  | .ofNat n => natDec n
  | .negSucc n => "-" ++ natDec (n + 1)

/-- zero padding to a fixed width, as the time package pads date
components. -/
def padZeros (l : List Char) (w : Nat) : List Char := List.replicate (w - l.length) '0' ++ l

/-- fixed-width decimal of an integer; a sign comes before the padding. -/
def intDecPad (i : Int) (w : Nat) : String :=
  if i < 0 then "-" ++ String.mk (padZeros (natDecChars i.natAbs) w)
  else String.mk (padZeros (natDecChars i.natAbs) w)

/-- Format with the YYYY-MM-DD layout on a civil date. -/
def goFormatYMD (x : Int × Int × Int) : String :=
  intDecPad x.1 4 ++ "-" ++ intDecPad x.2.1 2 ++ "-" ++ intDecPad x.2.2 2

/-- formatDate: parse the trimmed day token; on a parse error fall back to
the current system date (passed in as today, already formatted); otherwise
build the date with time.Date in the supplied year/month context and print
it in the YYYY-MM-DD layout. -/
def formatDate (dayText : String) (year month : Int) (today : String) : String :=
  match goAtoi (goTrim dayText) with
  | none => today
  | some dayNum => goFormatYMD (goDate year month dayNum)

/-- a table cell: its css class, its flattened text content, and the texts
of its embedded anchor elements in document order. -/
structure Cell where
  cls : String
  text : String
  links : List String
  deriving DecidableEq

/-- a table row is its list of cells. -/
abbrev Row := List Cell

/-- a table is its list of rows. -/
abbrev Table := List Row

/-- the row.Find call on a td class selector: the cells of the row that
carry the class. -/
def findCells (row : Row) (cls : String) : List Cell := row.filter (fun c => c.cls = cls)

/-- the Text call of goquery on a selection: the concatenated text of all
matched cells. -/
def selText : List Cell → String
  | [] => ""
  | c :: cs => c.text ++ selText cs

/-- texts of the anchor elements of a selection, in order. -/
def selLinks : List Cell → List String
  | [] => []
  | c :: cs => c.links ++ selLinks cs

/-- the Find-anchor-First-Text chain of extractFighterName: the text of
the first anchor of the selection, empty when there is none. -/
def selFirstLinkText (sel : List Cell) : String := (selLinks sel).headD ""

/-- strings.Split at the newline separator, on the character list; the
result always has at least one element. -/
def splitNL : List Char → List (List Char)
  | [] => [[]]
  | c :: rest =>
    if c = '\n' then [] :: splitNL rest
    else
      match splitNL rest with
      | [] => [[c]]
      | l :: ls => (c :: l) :: ls

/-- fallback branch of extractFighterName (inlined in the source): take
the first line of the full text, cut it at the first opening parenthesis
when one occurs, and trim.  The last arm mirrors the unreachable branch of
the source for an empty line list. -/
def nameFromFullText (fullText : String) : String :=
  match splitNL fullText.data with
  | [] => "Unknown Fighter"
  | line0 :: _ =>
    let fighterName := goTrim ⟨line0⟩
    if '(' ∈ fighterName.data then goTrim ⟨fighterName.data.takeWhile (fun c => c ≠ '(')⟩
    else fighterName

/-- extractFighterName: prefer the trimmed text of the first embedded
anchor when non-empty; otherwise derive the name from the trimmed full
cell text. -/
def extractFighterName (sel : List Cell) : String :=
  let linkText := goTrim (selFirstLinkText sel)
  if linkText ≠ "" then linkText else nameFromFullText (goTrim (selText sel))

/-- extractResult: collapse whitespace runs in the trimmed vs-cell text,
with the TBD sentinel for an empty result. -/
def extractResult (sel : List Cell) : String :=
  let resultText := goTrim (selText sel)
  let resultText := String.mk (collapseWS resultText.data)
  if resultText = "" then "TBD" else resultText

/-- FightEvent: one extracted candidate.  The originating-row pointer of
the source carries no further data in this model and is omitted. -/
structure FightEvent where
  location : String
  date : String
  fighter1 : String
  fighter2 : String
  result : String
  deriving DecidableEq

/-- body of the per-row closure of extractFightElements: the state is the
current location of the table paired with the events collected so far.  A
row with a place cell only updates the location; a row with all four fight
cells yields a candidate carrying the current location, kept when both
extracted names are non-empty. -/
def processRow (year month : Int) (today : String)
    (st : String × List FightEvent) (row : Row) : String × List FightEvent :=
  let currentLocation := st.1
  let acc := st.2
  let placeCells := findCells row "place"
  if 0 < placeCells.length then
    (cleanLocationText (goTrim (selText placeCells)), acc)
  else
    let dateCells := findCells row "date"
    let boxer1Cells := findCells row "boxer_1"
    let vsCells := findCells row "vs"
    let boxer2Cells := findCells row "boxer_2"
    if 0 < dateCells.length ∧ 0 < boxer1Cells.length ∧ 0 < vsCells.length ∧ 0 < boxer2Cells.length then
      let fightEvent : FightEvent :=
        { location := currentLocation
          date := formatDate (goTrim (selText dateCells)) year month today
          fighter1 := extractFighterName boxer1Cells
          fighter2 := extractFighterName boxer2Cells
          result := extractResult vsCells }
      if fightEvent.fighter1 ≠ "" ∧ fightEvent.fighter2 ≠ "" then
        (currentLocation, acc ++ [fightEvent])
      else (currentLocation, acc)
    else (currentLocation, acc)

/-- extractFightElements: walk tables in document order, resetting the
current location to the empty string per table; year and month are the
system clock values read at entry, and today is the formatted current
date used as the parse fallback (the month div text is read and logged by
the source but never used). -/
def extractFightElements (year month : Int) (today : String) (doc : List Table) : List FightEvent :=
  doc.foldl (fun acc table => (table.foldl (processRow year month today) ("", acc)).2) []

/-- mutable parser state relevant to ID generation: the idCounter field,
whose mutations the mutex serialises. -/
structure GenState where
  idCounter : Int
  deriving DecidableEq

/-- the Sprintf of generateUniqueID applied to a timestamp and a counter. -/
def mkFightID (timestamp counter : Int) : String :=
  "fight_" ++ intDec timestamp ++ "_" ++ intDec counter

/-- generateUniqueID: increment the counter under the mutex, read the
clock (now is the UnixNano value observed at this call), and format the
ID from both. -/
def generateUniqueID (now : Int) (st : GenState) : String × GenState :=
  let c := st.idCounter + 1
  (mkFightID now c, ⟨c⟩)

/-- a run of successive generateUniqueID calls on one instance: since the
mutex serialises the calls, any concurrent usage is some sequence of clock
observations threaded through the state. -/
def runGen : List Int → GenState → List String
  | [], _ => []
  | t :: ts, st =>
    let r := generateUniqueID t st
    r.1 :: runGen ts r.2

/-- NewParser initialises the counter to zero. -/
def newParserGen : GenState := ⟨0⟩

/-- the fight data map built by convertEventToFight, with its seven keys
as fields. -/
structure FightData where
  id : String
  date : String
  fighter1 : String
  fighter2 : String
  result : String
  location : String
  parsed_at : String
  deriving DecidableEq

/-- convertEventToFight: the map, including the generated ID, is built
before the fighter-name validation runs, so the counter advances even on
the error path; parsedAt is the RFC3339-formatted clock value. -/
def convertEventToFight (event : FightEvent) (now : Int) (parsedAt : String)
    (st : GenState) : Except String FightData × GenState :=
  let r := generateUniqueID now st
  let fight : FightData :=
    { id := r.1, date := event.date, fighter1 := event.fighter1,
      fighter2 := event.fighter2, result := event.result,
      location := event.location, parsed_at := parsedAt }
  if event.fighter1 = "" ∨ event.fighter2 = "" then
    (.error ("missing essential fight data: fighter1=" ++ event.fighter1 ++ ", fighter2=" ++ event.fighter2), r.2)
  else (.ok fight, r.2)

/-- a FightResult as sent on the result channel. -/
structure FightResult where
  fight : Option FightData
  error : Option String
  deriving DecidableEq

/-- what one select iteration of the collector observes: either a receive
on the result channel or the firing of the ten-second timeout case. -/
inductive RecvEvent where
  | recv (r : FightResult)
  | timeout
  deriving DecidableEq

/-- collector loop of processFightsConcurrently: one select per
dispatched candidate; an error result or a nil fight is skipped, and the
bare break of the timeout arm leaves only the select, so the loop
continues with the next iteration. -/
def collectLoop : Nat → List RecvEvent → List FightData → List FightData
  | 0, _, acc => acc
  | _+1, [], acc => acc
  | n+1, e :: es, acc =>
    match e with
    | .timeout => collectLoop n es acc
    | .recv r =>
      match r.error with
      | some _ => collectLoop n es acc
      | none =>
        match r.fight with
        | some f => collectLoop n es (acc ++ [f])
        | none => collectLoop n es acc

/-- processFightsConcurrently seen from its collector: one unit of work is
dispatched per candidate and the recvs list is the oracle of channel
receives and timeouts in the order the collector experiences them. -/
def processFightsConcurrently (fightEvents : List FightEvent) (recvs : List RecvEvent) : List FightData :=
  collectLoop fightEvents.length recvs []

/-- outcome of reading and parsing a response body. -/
inductive BodyOutcome where
  | parseFail
  | parsed (doc : List Table)
  deriving DecidableEq

/-- environment of one http fetch: request construction failure, transport
failure, or a response with a status code and a body. -/
inductive HTTPOutcome where
  | requestFail
  | transportFail
  | response (status : Nat) (body : BodyOutcome)
  deriving DecidableEq

/-- error kinds raised by fetchHTMLDocument, one per error site. -/
inductive FetchError where
  | requestError
  | networkError
  | notModified
  | unexpectedStatus (status : Nat)
  | parseError
  deriving DecidableEq

/-- fetchHTMLDocument: status 304 yields the distinct not-modified error,
any other status different from 200 yields the generic status error, and
only status 200 reaches the body parse. -/
def fetchHTMLDocument : HTTPOutcome → Except FetchError (List Table)
  | .requestFail => .error .requestError
  | .transportFail => .error .networkError
  | .response status body =>
    if status ≠ 200 then
      if status = 304 then .error .notModified else .error (.unexpectedStatus status)
    else
      match body with
      | .parseFail => .error .parseError
      | .parsed doc => .ok doc

/-- the one error shape returned by ParseFights: a wrapped fetch failure. -/
inductive ParseError where
  | fetchFailed (cause : FetchError)
  deriving DecidableEq

/-- ParseFights: a fetch failure aborts with a wrapped error; an empty
extraction returns the empty list with no error; otherwise the extracted
events are processed concurrently and the collected list is returned with
no error. -/
def ParseFights (outcome : HTTPOutcome) (year month : Int) (today : String)
    (recvs : List RecvEvent) : Except ParseError (List FightData) :=
  match fetchHTMLDocument outcome with
  | .error e => .error (.fetchFailed e)
  | .ok doc =>
    let fightEvents := extractFightElements year month today doc
    if fightEvents.length = 0 then .ok []
    else .ok (processFightsConcurrently fightEvents recvs)

/-- split of a character list at underscores. -/
def splitUS : List Char → List (List Char)
  | [] => [[]]
  | c :: rest =>
    if c = '_' then [] :: splitUS rest
    else
      match splitUS rest with
      | [] => [[c]]
      | l :: ls => (c :: l) :: ls

/-- timestamp component of a fight ID: the part between the first and the
second underscore. -/
def timestampComp (s : String) : List Char := (splitUS s.data).getD 1 []

/-- counter component of a fight ID: the part after the second
underscore. -/
def counterComp (s : String) : List Char := (splitUS s.data).getD 2 []

/-- decimal valuation of a digit string, used to invert the decimal
printer. -/
def valOf (l : List Char) : Nat := l.foldl (fun a c => a * 10 + (c.toNat - 48)) 0

/-- a row holding one location cell, for concrete scenarios. -/
def locRow (l : String) : Row := [⟨"place", l, []⟩]

/-- a fight row with date, boxer_1, vs and boxer_2 cells and no anchors,
for concrete scenarios. -/
def fightRow (d f1 r f2 : String) : Row :=
  [⟨"date", d, []⟩, ⟨"boxer_1", f1, []⟩, ⟨"vs", r, []⟩, ⟨"boxer_2", f2, []⟩]

theorem String_data_append (a b : String) : (a ++ b).data = a.data ++ b.data := rfl

theorem String_append_empty (s : String) : s ++ "" = s := by
  cases s with
  | mk data =>
    show String.mk (data ++ []) = String.mk data
    rw [List.append_nil]

theorem String_ext {a b : String} (h : a.data = b.data) : a = b := by
  cases a
  cases b
  cases h
  rfl

theorem valOf_append_digit (l : List Char) (c : Char) :
    valOf (l ++ [c]) = valOf l * 10 + (c.toNat - 48) := by
  simp [valOf, List.foldl_append]

theorem digitChar_toNat {d : Nat} (h : d < 10) : (Nat.digitChar d).toNat = d + 48 := by
  interval_cases d <;> decide

theorem valOf_decChars : ∀ (fuel n : Nat), n ≤ fuel → valOf (decChars fuel n) = n := by
  intro fuel
  induction fuel with
  | zero =>
    intro n hn
    interval_cases n
    rfl
  | succ fuel ih =>
    intro n hn
    by_cases h0 : n = 0
    · subst h0
      simp [decChars, valOf]
    · have hlt : n / 10 < n := Nat.div_lt_self (Nat.pos_of_ne_zero h0) (by omega)
      have hdiv : n / 10 ≤ fuel := by omega
      have hmod : n % 10 < 10 := Nat.mod_lt _ (by omega)
      calc valOf (decChars (fuel + 1) n)
          = valOf (decChars fuel (n / 10) ++ [Nat.digitChar (n % 10)]) := by
            simp only [decChars, if_neg h0]
        _ = valOf (decChars fuel (n / 10)) * 10 + ((Nat.digitChar (n % 10)).toNat - 48) :=
            valOf_append_digit _ _
        _ = (n / 10) * 10 + n % 10 := by rw [ih _ hdiv, digitChar_toNat hmod]; omega
        _ = n := by omega

theorem decChars_mem_digit : ∀ (fuel n : Nat), ∀ c ∈ decChars fuel n, 48 ≤ c.toNat ∧ c.toNat ≤ 57 := by
  intro fuel
  induction fuel with
  | zero =>
    intro n c hc
    simp [decChars] at hc
  | succ fuel ih =>
    intro n c hc
    by_cases h0 : n = 0
    · subst h0
      simp [decChars] at hc
    · simp only [decChars, if_neg h0, List.mem_append, List.mem_singleton] at hc
      rcases hc with hc | hc
      · exact ih _ c hc
      · subst hc
        have hmod : n % 10 < 10 := Nat.mod_lt _ (by omega)
        rw [digitChar_toNat hmod]
        omega

theorem natDecChars_digit {n : Nat} {c : Char} (hc : c ∈ natDecChars n) :
    48 ≤ c.toNat ∧ c.toNat ≤ 57 := by
  unfold natDecChars at hc
  by_cases h0 : n = 0
  · rw [if_pos h0] at hc
    simp at hc
    subst hc
    decide
  · rw [if_neg h0] at hc
    exact decChars_mem_digit _ _ c hc

theorem valOf_natDecChars (n : Nat) : valOf (natDecChars n) = n := by
  unfold natDecChars
  by_cases h0 : n = 0
  · rw [if_pos h0, h0]
    decide
  · rw [if_neg h0]
    exact valOf_decChars n n le_rfl

theorem natDecChars_inj {a b : Nat} (h : natDecChars a = natDecChars b) : a = b := by
  have h2 := congrArg valOf h
  rwa [valOf_natDecChars, valOf_natDecChars] at h2

theorem intDec_data_ofNat (n : Nat) : (intDec (Int.ofNat n)).data = natDecChars n := rfl

theorem intDec_data_negSucc (n : Nat) : (intDec (Int.negSucc n)).data = '-' :: natDecChars (n + 1) := rfl

theorem intDec_no_us {i : Int} {c : Char} (hc : c ∈ (intDec i).data) : c ≠ '_' := by
  cases i with
  | ofNat n =>
    rw [intDec_data_ofNat] at hc
    have h2 := natDecChars_digit hc
    intro he
    subst he
    exact absurd h2 (by decide)
  | negSucc n =>
    rw [intDec_data_negSucc] at hc
    rcases List.mem_cons.mp hc with h | h
    · subst h
      decide
    · have h2 := natDecChars_digit h
      intro he
      subst he
      exact absurd h2 (by decide)

theorem intDec_inj {a b : Int} (h : intDec a = intDec b) : a = b := by
  have hd := congrArg String.data h
  cases a with
  | ofNat n =>
    cases b with
    | ofNat m =>
      rw [intDec_data_ofNat, intDec_data_ofNat] at hd
      exact congrArg Int.ofNat (natDecChars_inj hd)
    | negSucc m =>
      rw [intDec_data_ofNat, intDec_data_negSucc] at hd
      have hmem : '-' ∈ natDecChars n := by
        rw [hd]
        exact List.mem_cons_self _ _
      exact absurd (natDecChars_digit hmem) (by decide)
  | negSucc n =>
    cases b with
    | ofNat m =>
      rw [intDec_data_negSucc, intDec_data_ofNat] at hd
      have hmem : '-' ∈ natDecChars m := by
        rw [← hd]
        exact List.mem_cons_self _ _
      exact absurd (natDecChars_digit hmem) (by decide)
    | negSucc m =>
      rw [intDec_data_negSucc, intDec_data_negSucc] at hd
      have h2 : natDecChars (n + 1) = natDecChars (m + 1) := by injection hd
      have h3 := natDecChars_inj h2
      have h4 : n = m := by omega
      rw [h4]

theorem splitUS_no_us {l : List Char} (h : ∀ c ∈ l, c ≠ '_') : splitUS l = [l] := by
  induction l with
  | nil => rfl
  | cons c rest ih =>
    have hc : c ≠ '_' := h c (List.mem_cons_self _ _)
    rw [splitUS, if_neg hc, ih (fun x hx => h x (List.mem_cons_of_mem _ hx))]

theorem splitUS_append {A B : List Char} (h : ∀ c ∈ A, c ≠ '_') :
    splitUS (A ++ '_' :: B) = A :: splitUS B := by
  induction A with
  | nil =>
    show splitUS ('_' :: B) = [] :: splitUS B
    rw [splitUS, if_pos rfl]
  | cons c rest ih =>
    have hc : c ≠ '_' := h c (List.mem_cons_self _ _)
    rw [List.cons_append, splitUS, if_neg hc,
      ih (fun x hx => h x (List.mem_cons_of_mem _ hx))]

theorem mkFightID_data (t c : Int) :
    (mkFightID t c).data =
      ['f', 'i', 'g', 'h', 't'] ++ '_' :: ((intDec t).data ++ '_' :: (intDec c).data) := by
  show ((("fight_" ++ intDec t) ++ "_") ++ intDec c).data = _
  rw [String_data_append, String_data_append, String_data_append]
  show (('f' :: 'i' :: 'g' :: 'h' :: 't' :: '_' :: [] ++ (intDec t).data) ++ '_' :: [] ++ (intDec c).data) = _
  simp

theorem splitUS_mkFightID (t c : Int) :
    splitUS (mkFightID t c).data = [['f', 'i', 'g', 'h', 't'], (intDec t).data, (intDec c).data] := by
  rw [mkFightID_data, splitUS_append (by decide),
    splitUS_append (fun x hx => intDec_no_us hx),
    splitUS_no_us (fun x hx => intDec_no_us hx)]

theorem timestampComp_mkFightID (t c : Int) : timestampComp (mkFightID t c) = (intDec t).data := by
  unfold timestampComp
  rw [splitUS_mkFightID]
  rfl

theorem counterComp_mkFightID (t c : Int) : counterComp (mkFightID t c) = (intDec c).data := by
  unfold counterComp
  rw [splitUS_mkFightID]
  rfl

theorem mkFightID_counter_inj {t₁ c₁ t₂ c₂ : Int} (h : mkFightID t₁ c₁ = mkFightID t₂ c₂) :
    c₁ = c₂ := by
  have h2 := congrArg counterComp h
  rw [counterComp_mkFightID, counterComp_mkFightID] at h2
  exact intDec_inj (String_ext h2)

theorem runGen_mem {times : List Int} {st : GenState} {id : String}
    (h : id ∈ runGen times st) : ∃ t c, st.idCounter < c ∧ id = mkFightID t c := by
  induction times generalizing st with
  | nil => simp [runGen] at h
  | cons t ts ih =>
    simp only [runGen, generateUniqueID] at h
    rcases List.mem_cons.mp h with h1 | h1
    · exact ⟨t, st.idCounter + 1, by omega, h1⟩
    · obtain ⟨t2, c2, hc, he⟩ := ih h1
      exact ⟨t2, c2, by simp at hc; omega, he⟩

theorem runGen_nodup (times : List Int) (st : GenState) : (runGen times st).Nodup := by
  induction times generalizing st with
  | nil => exact List.nodup_nil
  | cons t ts ih =>
    simp only [runGen, generateUniqueID]
    refine List.nodup_cons.mpr ⟨?_, ih _⟩
    intro hmem
    obtain ⟨t2, c2, hc, he⟩ := runGen_mem hmem
    have h2 := mkFightID_counter_inj he
    simp at hc
    omega

theorem selText_singleton (c : Cell) : selText [c] = c.text := by
  show c.text ++ selText [] = c.text
  exact String_append_empty _

theorem processRow_no_place {row : Row} (year month : Int) (today : String)
    (st : String × List FightEvent) (h : findCells row "place" = []) :
    (processRow year month today st row).1 = st.1 ∧
      ∀ fe ∈ (processRow year month today st row).2, fe ∈ st.2 ∨ fe.location = st.1 := by
  unfold processRow
  rw [h]
  simp only [List.length_nil, lt_irrefl, if_false]
  split
  · split
    · refine ⟨rfl, ?_⟩
      intro fe hfe
      rcases List.mem_append.mp hfe with h1 | h1
      · exact Or.inl h1
      · simp at h1
        subst h1
        exact Or.inr rfl
    · exact ⟨rfl, fun fe hfe => Or.inl hfe⟩
  · exact ⟨rfl, fun fe hfe => Or.inl hfe⟩

theorem foldl_no_place {t : Table} (year month : Int) (today : String)
    (h : ∀ r ∈ t, findCells r "place" = []) :
    ∀ st : String × List FightEvent,
      ∀ fe ∈ (t.foldl (processRow year month today) st).2, fe ∈ st.2 ∨ fe.location = st.1 := by
  induction t with
  | nil => exact fun st fe hfe => Or.inl hfe
  | cons r rs ih =>
    intro st fe hfe
    rw [List.foldl_cons] at hfe
    have hr := processRow_no_place year month today st (h r (List.mem_cons_self _ _))
    have hrec := ih (fun x hx => h x (List.mem_cons_of_mem _ hx)) (processRow year month today st r) fe hfe
    rcases hrec with h1 | h1
    · rcases hr.2 fe h1 with h2 | h2
      · exact Or.inl h2
      · exact Or.inr h2
    · rw [hr.1] at h1
      exact Or.inr h1

theorem processRow_locRow (year month : Int) (today : String)
    (st : String × List FightEvent) (l : String) :
    processRow year month today st (locRow l) = (cleanLocationText (goTrim l), st.2) := by
  unfold processRow locRow findCells
  simp [selText_singleton]

theorem processRow_fightRow (year month : Int) (today : String)
    (st : String × List FightEvent) (d f1 r f2 : String)
    (h1 : extractFighterName [⟨"boxer_1", f1, []⟩] ≠ "")
    (h2 : extractFighterName [⟨"boxer_2", f2, []⟩] ≠ "") :
    processRow year month today st (fightRow d f1 r f2) =
      (st.1, st.2 ++ [{ location := st.1,
                        date := formatDate (goTrim d) year month today,
                        fighter1 := extractFighterName [⟨"boxer_1", f1, []⟩],
                        fighter2 := extractFighterName [⟨"boxer_2", f2, []⟩],
                        result := extractResult [⟨"vs", r, []⟩] }]) := by
  unfold processRow fightRow findCells
  simp [selText_singleton, h1, h2]

/-- Claim C1 (counterexample): in a table with one fight row and no
location row, the emitted candidate's location is the empty string, not
the sentinel, so the claim as stated fails (the section-8 two-table
scenario likewise yields the empty string for the table without a
location row). -/
theorem c1_counterexample :
    (extractFightElements 2025 7 "2025-07-05"
        [[fightRow "20" "Mike Johnson" "Decision" "Sarah Connor"]]).map FightEvent.location = [""]
      ∧ ("" : String) ≠ "Unknown Location" := by
  constructor
  · decide
  · decide

/-- Claim C1 (amended): for every fight row with no preceding location row
within its table, the emitted candidate's location field is the empty
string, because the per-table current location starts as the empty string
and the Unknown Location sentinel is only produced while cleaning the text
of an actually present location row. -/
theorem extract_no_place_location_empty (year month : Int) (today : String)
    (t : Table) (h : ∀ r ∈ t, findCells r "place" = []) :
    ∀ fe ∈ extractFightElements year month today [t], fe.location = "" := by
  intro fe hfe
  unfold extractFightElements at hfe
  rw [List.foldl_cons, List.foldl_nil] at hfe
  rcases foldl_no_place year month today h ("", []) fe hfe with h1 | h1
  · simp at h1
  · exact h1

/-- Claim C1 (witness): the amended theorem applied to the concrete
one-fight table with no location row. -/
theorem c1_amended_witness :
    ({ location := "", date := "2025-07-20", fighter1 := "Mike Johnson",
       fighter2 := "Sarah Connor", result := "Decision" } : FightEvent).location = "" :=
  extract_no_place_location_empty 2025 7 "2025-07-05"
    [fightRow "20" "Mike Johnson" "Decision" "Sarah Connor"] (by decide) _ (by decide)

/-- Claim C8: in a table holding a location row, two fight rows, a second
location row and one more fight row, extraction emits three candidates in
document order, the first two carrying the first cleaned location and the
third carrying the second; the hypotheses state that all six extracted
fighter names are non-empty, so no candidate is dropped. -/
theorem extract_location_context (year month : Int) (today : String)
    (l1 l2 d1 d2 d3 f1a f1b f2a f2b f3a f3b r1 r2 r3 : String)
    (h1a : extractFighterName [⟨"boxer_1", f1a, []⟩] ≠ "")
    (h1b : extractFighterName [⟨"boxer_2", f1b, []⟩] ≠ "")
    (h2a : extractFighterName [⟨"boxer_1", f2a, []⟩] ≠ "")
    (h2b : extractFighterName [⟨"boxer_2", f2b, []⟩] ≠ "")
    (h3a : extractFighterName [⟨"boxer_1", f3a, []⟩] ≠ "")
    (h3b : extractFighterName [⟨"boxer_2", f3b, []⟩] ≠ "") :
    (extractFightElements year month today
        [[locRow l1, fightRow d1 f1a r1 f1b, fightRow d2 f2a r2 f2b,
          locRow l2, fightRow d3 f3a r3 f3b]]).map FightEvent.location =
      [cleanLocationText (goTrim l1), cleanLocationText (goTrim l1), cleanLocationText (goTrim l2)] := by
  unfold extractFightElements
  rw [List.foldl_cons, List.foldl_nil, List.foldl_cons, List.foldl_cons, List.foldl_cons,
    List.foldl_cons, List.foldl_cons, List.foldl_nil]
  rw [processRow_locRow, processRow_fightRow _ _ _ _ _ _ _ _ h1a h1b,
    processRow_fightRow _ _ _ _ _ _ _ _ h2a h2b, processRow_locRow,
    processRow_fightRow _ _ _ _ _ _ _ _ h3a h3b]
  simp

/-- Claim C8 (witness): the sequential-context theorem applied to the
concrete two-location five-row table. -/
theorem c8_witness :
    (extractFightElements 2025 7 "2025-07-05"
        [[locRow "Las Vegas, NV", fightRow "15" "John Doe" "KO" "Jane Smith",
          fightRow "16" "Al Pha" "TKO" "Be Ta",
          locRow "Reno, NV", fightRow "20" "Mike Johnson" "Decision" "Sarah Connor"]]).map FightEvent.location =
      [cleanLocationText (goTrim "Las Vegas, NV"), cleanLocationText (goTrim "Las Vegas, NV"),
        cleanLocationText (goTrim "Reno, NV")] :=
  extract_location_context 2025 7 "2025-07-05" "Las Vegas, NV" "Reno, NV"
    "15" "16" "20" "John Doe" "Jane Smith" "Al Pha" "Be Ta" "Mike Johnson" "Sarah Connor"
    "KO" "TKO" "Decision"
    (by decide) (by decide) (by decide) (by decide) (by decide) (by decide)

theorem splitNL_head : ∀ l : List Char, ∃ ls, splitNL l = l.takeWhile (fun c => c ≠ '\n') :: ls := by
  intro l
  induction l with
  | nil => exact ⟨[], rfl⟩
  | cons c rest ih =>
    by_cases hc : c = '\n'
    · subst hc
      refine ⟨splitNL rest, ?_⟩
      rw [splitNL, if_pos rfl]
      simp [List.takeWhile_cons]
    · obtain ⟨ls, hls⟩ := ih
      refine ⟨ls, ?_⟩
      rw [splitNL, if_neg hc, hls]
      simp [List.takeWhile_cons, hc]

theorem nameFromFullText_eq (fullText : String) :
    nameFromFullText fullText =
      (if '(' ∈ (goTrim ⟨fullText.data.takeWhile (fun c => c ≠ '\n')⟩).data then
        goTrim ⟨(goTrim ⟨fullText.data.takeWhile (fun c => c ≠ '\n')⟩).data.takeWhile (fun c => c ≠ '(')⟩
      else goTrim ⟨fullText.data.takeWhile (fun c => c ≠ '\n')⟩) := by
  unfold nameFromFullText
  obtain ⟨ls, hls⟩ := splitNL_head fullText.data
  rw [hls]

theorem takeWhile_ne_of_not_mem {l : List Char} {a : Char} (h : a ∉ l) :
    l.takeWhile (fun c => c ≠ a) = l := by
  induction l with
  | nil => rfl
  | cons c rest ih =>
    rw [List.takeWhile_cons]
    have hca : c ≠ a := fun he => h (he ▸ List.mem_cons_self _ _)
    rw [ih (fun hm => h (List.mem_cons_of_mem _ hm))]
    simp [hca]

/-- Claim C2 (counterexample): a cell with no anchor and empty full text
makes extractFighterName return the empty string, not the Unknown Fighter
sentinel, so the claim as stated fails. -/
theorem c2_counterexample :
    extractFighterName [⟨"boxer_1", "", []⟩] ≠ "Unknown Fighter" := by decide

/-- Claim C2 (amended): for every cell selection whose first-anchor text
trims to empty and whose full text reduces to empty after taking the first
line and stripping from the first opening parenthesis, extractFighterName
returns the empty string: splitting a string at newlines always yields at
least one piece, so the Unknown Fighter branch of the source is
unreachable and the empty name propagates (to be dropped later by the
non-empty-name filters). -/
theorem extractFighterName_empty_result (sel : List Cell)
    (hlink : goTrim (selFirstLinkText sel) = "")
    (hname : (goTrim ⟨(goTrim (selText sel)).data.takeWhile (fun c => c ≠ '\n')⟩).data.takeWhile
        (fun c => c ≠ '(') = []) :
    extractFighterName sel = "" ∧ extractFighterName sel ≠ "Unknown Fighter" := by
  have hmain : extractFighterName sel = "" := by
    unfold extractFighterName
    rw [hlink]
    simp only [ne_eq, not_true_eq_false, if_false]
    rw [nameFromFullText_eq]
    by_cases hp : '(' ∈ (goTrim ⟨(goTrim (selText sel)).data.takeWhile (fun c => c ≠ '\n')⟩).data
    · rw [if_pos hp, hname]
      rfl
    · rw [if_neg hp]
      rw [takeWhile_ne_of_not_mem hp] at hname
      exact String_ext hname
  exact ⟨hmain, by rw [hmain]; decide⟩

/-- Claim C2 (witness): the amended theorem applied to the empty boxer
cell. -/
theorem c2_witness :
    extractFighterName [⟨"boxer_1", "", []⟩] = "" ∧
      extractFighterName [⟨"boxer_1", "", []⟩] ≠ "Unknown Fighter" :=
  extractFighterName_empty_result [⟨"boxer_1", "", []⟩] (by decide) (by decide)

/-- Claim C3 (counterexample): two calls on the same freshly constructed
instance whose clock readings differ produce IDs with different timestamp
components, so the timestamp is not captured once per instance. -/
theorem c3_counterexample :
    timestampComp (generateUniqueID 1 newParserGen).1 ≠
      timestampComp (generateUniqueID 2 (generateUniqueID 1 newParserGen).2).1 := by decide

/-- Claim C3 (amended): every ID has the shape with a timestamp component
and a counter component, but the timestamp is the clock value read at that
call; two calls on the same instance share the timestamp component exactly
when their clock readings coincide, and always differ in the counter, so
the two IDs themselves always differ. -/
theorem generateUniqueID_per_call_timestamp (now₁ now₂ : Int) (st : GenState) :
    timestampComp (generateUniqueID now₁ st).1 = (intDec now₁).data
    ∧ timestampComp (generateUniqueID now₂ (generateUniqueID now₁ st).2).1 = (intDec now₂).data
    ∧ (generateUniqueID now₁ st).1 ≠ (generateUniqueID now₂ (generateUniqueID now₁ st).2).1
    ∧ (now₁ = now₂ →
        timestampComp (generateUniqueID now₁ st).1 =
          timestampComp (generateUniqueID now₂ (generateUniqueID now₁ st).2).1) := by
  refine ⟨timestampComp_mkFightID _ _, timestampComp_mkFightID _ _, ?_, ?_⟩
  · intro h
    have h2 : mkFightID now₁ (st.idCounter + 1) =
        mkFightID now₂ (st.idCounter + 1 + 1) := h
    have h3 := mkFightID_counter_inj h2
    omega
  · intro h
    subst h
    show timestampComp (mkFightID now₁ (st.idCounter + 1)) =
      timestampComp (mkFightID now₁ (st.idCounter + 1 + 1))
    rw [timestampComp_mkFightID, timestampComp_mkFightID]

/-- Claim C3 (witness): the amended theorem at two equal clock readings on
a fresh instance. -/
theorem c3_witness :
    timestampComp (generateUniqueID 5 newParserGen).1 = (intDec 5).data
    ∧ timestampComp (generateUniqueID 5 (generateUniqueID 5 newParserGen).2).1 = (intDec 5).data
    ∧ (generateUniqueID 5 newParserGen).1 ≠ (generateUniqueID 5 (generateUniqueID 5 newParserGen).2).1
    ∧ ((5 : Int) = 5 →
        timestampComp (generateUniqueID 5 newParserGen).1 =
          timestampComp (generateUniqueID 5 (generateUniqueID 5 newParserGen).2).1) :=
  generateUniqueID_per_call_timestamp 5 5 newParserGen

/-- Claim C9: within one generator instance, any serialised run of calls,
whatever clock values the calls observe, yields pairwise distinct ID
strings, because the counter component strictly increases across calls. -/
theorem generateUniqueID_run_distinct (times : List Int) :
    (runGen times newParserGen).Nodup :=
  runGen_nodup times newParserGen

/-- Claim C10: for a candidate with an empty fighter name,
convertEventToFight returns an error and no record, yet the counter has
still advanced by one, because the ID is generated while the map is built,
before the validation runs. -/
theorem convertEventToFight_error_increments (event : FightEvent) (now : Int)
    (parsedAt : String) (st : GenState) (h : event.fighter1 = "" ∨ event.fighter2 = "") :
    (∃ msg, (convertEventToFight event now parsedAt st).1 = .error msg)
    ∧ (convertEventToFight event now parsedAt st).2.idCounter = st.idCounter + 1 := by
  unfold convertEventToFight generateUniqueID
  rw [if_pos h]
  exact ⟨⟨_, rfl⟩, rfl⟩

/-- Claim C10 (witness): the conversion theorem at a concrete candidate
with an empty first fighter name. -/
theorem c10_witness :
    (∃ msg, (convertEventToFight
        ⟨"Las Vegas, NV", "2025-07-20", "", "Sarah Connor", "Decision"⟩ 7
        "2025-07-05T10:00:00Z" newParserGen).1 = .error msg)
    ∧ (convertEventToFight
        ⟨"Las Vegas, NV", "2025-07-20", "", "Sarah Connor", "Decision"⟩ 7
        "2025-07-05T10:00:00Z" newParserGen).2.idCounter = newParserGen.idCounter + 1 :=
  convertEventToFight_error_increments
    ⟨"Las Vegas, NV", "2025-07-20", "", "Sarah Connor", "Decision"⟩ 7
    "2025-07-05T10:00:00Z" newParserGen (Or.inl rfl)

/-- Claim C4 (evaluation at the failing input): with two dispatched
candidates, a first-iteration timeout and a second-iteration successful
receive, the collector still collects the later result — the bare break of
the timeout arm leaves only the select, so collection is not abandoned as
the claim (and the intended short-circuit) states. -/
theorem c4_collector_continues_after_timeout :
    processFightsConcurrently
      [⟨"", "2025-07-15", "John Doe", "Jane Smith", "KO"⟩,
        ⟨"", "2025-07-20", "Mike Johnson", "Sarah Connor", "Decision"⟩]
      [.timeout,
        .recv ⟨some ⟨"fight_1_1", "2025-07-15", "John Doe", "Jane Smith", "KO", "", "2025-07-05T10:00:00Z"⟩, none⟩] =
      [⟨"fight_1_1", "2025-07-15", "John Doe", "Jane Smith", "KO", "", "2025-07-05T10:00:00Z"⟩] := rfl

theorem normYM_id {year month : Int} (h1 : 1 ≤ month) (h2 : month ≤ 12) :
    normYM year month = (year, month) := by
  obtain ⟨n, hn⟩ : ∃ n : Nat, month - 1 = (n : Int) :=
    ⟨(month - 1).toNat, (Int.toNat_of_nonneg (by omega)).symm⟩
  have hlt : n < 12 := by omega
  unfold normYM
  rw [hn]
  have hf : ((n : Int)).fdiv 12 = ((n / 12 : Nat) : Int) := by
    cases n with
    | zero => rfl
    | succ k => rfl
  have he : ((n : Int)).emod 12 = ((n % 12 : Nat) : Int) := rfl
  rw [hf, he, Nat.div_eq_of_lt hlt, Nat.mod_eq_of_lt hlt]
  simp only [Prod.mk.injEq]
  constructor <;> omega

theorem normDayF_id {year month d : Int} (h1 : 1 ≤ d) (h2 : d ≤ daysInMonth year month) :
    normDayF (d.natAbs + 1) (year, month, d) = (year, month, d) := by
  rw [normDayF]
  rw [if_neg (by omega), if_neg (by omega)]

/-- Claim C5 (counterexample): the day token thirty in the February 2025
context formats as the second of March, because time.Date normalises an
out-of-range day, so the output's day and month components do not match
the supplied context and token. -/
theorem c5_counterexample :
    formatDate "30" 2025 2 "2099-01-01" = "2025-03-02"
      ∧ ("2025-03-02" : String) ≠ "2025-02-30" := by
  constructor
  · decide
  · decide

/-- Claim C5 (amended): for every day token parsing to a day between one
and the number of days of the supplied month and year (the month context
being a real month), formatDate returns the YYYY-MM-DD string built from
exactly the supplied year, month and parsed day. -/
theorem formatDate_valid_day (dayText : String) (year month d : Int) (today : String)
    (hm1 : 1 ≤ month) (hm2 : month ≤ 12)
    (hp : goAtoi (goTrim dayText) = some d)
    (hd1 : 1 ≤ d) (hd2 : d ≤ daysInMonth year month) :
    formatDate dayText year month today =
      intDecPad year 4 ++ "-" ++ intDecPad month 2 ++ "-" ++ intDecPad d 2 := by
  unfold formatDate
  rw [hp]
  unfold goDate
  rw [normYM_id hm1 hm2]
  show goFormatYMD (normDayF (d.natAbs + 1) (year, month, d)) = _
  rw [normDayF_id hd1 hd2]
  rfl

/-- Claim C5 (witness): the amended theorem at the day token fifteen in
the July 2025 context. -/
theorem c5_witness :
    formatDate "15" 2025 7 "2099-01-01" =
      intDecPad 2025 4 ++ "-" ++ intDecPad 7 2 ++ "-" ++ intDecPad 15 2 :=
  formatDate_valid_day "15" 2025 7 15 "2099-01-01" (by decide) (by decide) (by decide)
    (by decide) (by decide)

/-- Claim C6 (counterexample): status 201 is a 2xx status, yet the fetch
does not proceed to parse the body; it returns the generic status error,
because the source compares against exactly 200. -/
theorem c6_counterexample :
    fetchHTMLDocument (.response 201 (.parsed [])) ≠ .ok [] := fun h => Except.noConfusion h

/-- Claim C6 (amended): the fetch returns the distinct not-modified error
exactly when the status is 304, the generic status error exactly when the
status is neither 200 nor 304 (including the other 2xx codes), and
proceeds to the body parse exactly for status 200. -/
theorem fetchHTMLDocument_status (status : Nat) (body : BodyOutcome) :
    (fetchHTMLDocument (.response status body) = .error .notModified ↔ status = 304)
    ∧ (fetchHTMLDocument (.response status body) = .error (.unexpectedStatus status)
        ↔ (status ≠ 200 ∧ status ≠ 304))
    ∧ (status = 200 → fetchHTMLDocument (.response status body) =
        match body with
        | .parseFail => .error .parseError
        | .parsed doc => .ok doc) := by
  simp only [fetchHTMLDocument]
  by_cases h200 : status = 200
  · subst h200
    rw [if_neg (by omega)]
    cases body <;> simp
  · rw [if_pos h200]
    by_cases h304 : status = 304
    · subst h304
      rw [if_pos rfl]
      simp
    · rw [if_neg h304]
      simp [h200, h304]

/-- Claim C6 (witness): the amended status theorem at status 304 with a
parseable body. -/
theorem c6_witness :
    (fetchHTMLDocument (.response 304 (.parsed [])) = .error .notModified ↔ 304 = 304)
    ∧ (fetchHTMLDocument (.response 304 (.parsed [])) = .error (.unexpectedStatus 304)
        ↔ (304 ≠ 200 ∧ 304 ≠ 304))
    ∧ (304 = 200 → fetchHTMLDocument (.response 304 (.parsed [])) =
        match BodyOutcome.parsed [] with
        | .parseFail => .error .parseError
        | .parsed doc => .ok doc) :=
  fetchHTMLDocument_status 304 (.parsed [])

/-- Claim C7: ParseFights returns an error exactly when the document fetch
does (wrapping it), and a successful fetch whose extraction yields no
candidates returns the empty list with no error. -/
theorem ParseFights_error_only_fetch (outcome : HTTPOutcome) (year month : Int)
    (today : String) (recvs : List RecvEvent) :
    ((∃ e, ParseFights outcome year month today recvs = .error e)
      ↔ (∃ e2, fetchHTMLDocument outcome = .error e2))
    ∧ (∀ doc, fetchHTMLDocument outcome = .ok doc →
        extractFightElements year month today doc = [] →
        ParseFights outcome year month today recvs = .ok []) := by
  constructor
  · constructor
    · rintro ⟨e, he⟩
      cases hf : fetchHTMLDocument outcome with
      | error e2 => exact ⟨e2, rfl⟩
      | ok doc =>
        have hP : ParseFights outcome year month today recvs =
            (if (extractFightElements year month today doc).length = 0 then .ok []
             else .ok (processFightsConcurrently (extractFightElements year month today doc) recvs)) := by
          unfold ParseFights
          rw [hf]
        rw [hP] at he
        split at he <;> exact Except.noConfusion he
    · rintro ⟨e2, he⟩
      refine ⟨.fetchFailed e2, ?_⟩
      unfold ParseFights
      rw [he]
  · intro doc hdoc hempty
    unfold ParseFights
    rw [hdoc]
    simp [hempty]

/-- Claim C7 (witness): a 304 response makes ParseFights fail with a
wrapped fetch error. -/
theorem c7_witness :
    ∃ e, ParseFights (.response 304 (.parsed [])) 2025 7 "2025-07-05" [] = .error e :=
  (ParseFights_error_only_fetch (.response 304 (.parsed [])) 2025 7 "2025-07-05" []).1.mpr
    ⟨.notModified, rfl⟩

end EasyPars
